import Mathlib

/-!
Verification of the consent-management data layer in `streamlit_app.py`
(tables `consent_texts` and `consents`, operations `upsert_consent_text`,
`get_latest_consent_text`, `list_consent_texts`, `save_consent`,
`list_consents`, `revoke_consent`).

Embedding conventions:
* Each SQLite table is a Lean list of structure values; the database is a
  `DB` structure holding both tables plus the rowid counter that SQLite
  assigns for `consent_texts.id` (`INTEGER PRIMARY KEY`).
* `datetime.now(timezone.utc).isoformat()` timestamps are modelled as `Nat`
  clock readings passed in as a `now` argument; ISO-8601 UTC strings compare
  lexicographically exactly as their instants compare numerically, so both
  `ORDER BY created_at DESC` and `ORDER BY datetime(created_at) DESC` become
  numeric comparison on `created_at`.
* `hashlib.sha256(body.encode("utf-8")).hexdigest()` is implemented in full:
  `utf8Encode` produces the UTF-8 byte sequence and `sha256Bytes` is FIPS
  180-4 SHA-256 returning the lowercase hex digest.
* `str(uuid.uuid4())` is modelled as a caller-supplied identifier `cid`;
  theorems that rely on uuid freshness state it as an explicit hypothesis.
  The `id TEXT PRIMARY KEY` constraint is modelled by `save_consent`
  returning `none` (the failed, uncommitted transaction) on a duplicate id.
* `json.dumps(purposes)` is modelled by passing the already-serialized
  purposes string; none of the verified properties inspect its contents.
* SQL `NULL` becomes `Option`; Python `x or None` becomes `pyOrNone`.
-/

/-! ### SHA-256 over UTF-8 bytes (hashlib.sha256(...).hexdigest()) -/

def rotr (n x : Nat) : Nat := ((x >>> n) ||| (x <<< (32 - n))) % 4294967296

def shaCh (x y z : Nat) : Nat := ((x &&& y) ^^^ ((x ^^^ 4294967295) &&& z)) % 4294967296

def shaMaj (x y z : Nat) : Nat := ((x &&& y) ^^^ (x &&& z) ^^^ (y &&& z)) % 4294967296

def bigSigma0 (x : Nat) : Nat := (rotr 2 x ^^^ rotr 13 x ^^^ rotr 22 x) % 4294967296

def bigSigma1 (x : Nat) : Nat := (rotr 6 x ^^^ rotr 11 x ^^^ rotr 25 x) % 4294967296

def smallSigma0 (x : Nat) : Nat := (rotr 7 x ^^^ rotr 18 x ^^^ (x >>> 3)) % 4294967296

def smallSigma1 (x : Nat) : Nat := (rotr 17 x ^^^ rotr 19 x ^^^ (x >>> 10)) % 4294967296

def shaK : List Nat :=
  [1116352408, 1899447441, 3049323471, 3921009573, 961987163, 1508970993,
   2453635748, 2870763221, 3624381080, 310598401, 607225278, 1426881987,
   1925078388, 2162078206, 2614888103, 3248222580, 3835390401, 4022224774,
   264347078, 604807628, 770255983, 1249150122, 1555081692, 1996064986,
   2554220882, 2821834349, 2952996808, 3210313671, 3336571891, 3584528711,
   113926993, 338241895, 666307205, 773529912, 1294757372, 1396182291,
   1695183700, 1986661051, 2177026350, 2456956037, 2730485921, 2820302411,
   3259730800, 3345764771, 3516065817, 3600352804, 4094571909, 275423344,
   430227734, 506948616, 659060556, 883997877, 958139571, 1322822218,
   1537002063, 1747873779, 1955562222, 2024104815, 2227730452, 2361852424,
   2428436474, 2756734187, 3204031479, 3329325298]

def shaInit : List Nat :=
  [1779033703, 3144134277, 1013904242, 2773480762,
   1359893119, 2600822924, 528734635, 1541459225]

def toBytesBE (n x : Nat) : List Nat :=
  (List.range n).map (fun i => (x >>> (8 * (n - 1 - i))) % 256)

def padMessage (msg : List Nat) : List Nat :=
  let len := msg.length
  let zeros := (119 - len % 64) % 64
  msg ++ [0x80] ++ List.replicate zeros 0 ++ toBytesBE 8 (len * 8)

def toWords : List Nat → List Nat
  | a :: b :: c :: d :: rest => (a * 16777216 + b * 65536 + c * 256 + d) :: toWords rest
  | _ => []

def extendSchedule (ws : List Nat) : List Nat :=
  (List.range 48).foldl (fun acc _ =>
    let n := acc.length
    acc ++ [(smallSigma1 (acc.getD (n - 2) 0) + acc.getD (n - 7) 0 +
             smallSigma0 (acc.getD (n - 15) 0) + acc.getD (n - 16) 0) % 4294967296]) ws

def shaRound (st : List Nat) (k w : Nat) : List Nat :=
  match st with
  | [a, b, c, d, e, f, g, h] =>
    let t1 := (h + bigSigma1 e + shaCh e f g + k + w) % 4294967296
    let t2 := (bigSigma0 a + shaMaj a b c) % 4294967296
    [(t1 + t2) % 4294967296, a, b, c, (d + t1) % 4294967296, e, f, g]
  | _ => st

def compress (h ws16 : List Nat) : List Nat :=
  let w := extendSchedule ws16
  let st := (shaK.zip w).foldl (fun st p => shaRound st p.1 p.2) h
  (h.zip st).map (fun p => (p.1 + p.2) % 4294967296)

def processBlocks : Nat → List Nat → List Nat → List Nat
  | 0, h, _ => h
  | fuel + 1, h, ws => processBlocks fuel (compress h (ws.take 16)) (ws.drop 16)

def hexDigit (n : Nat) : Char := if n < 10 then Char.ofNat (48 + n) else Char.ofNat (87 + n)

def wordToHex (w : Nat) : String :=
  String.mk ((List.range 8).map (fun i => hexDigit ((w >>> (4 * (7 - i))) % 16)))

def sha256Bytes (msg : List Nat) : String :=
  let ws := toWords (padMessage msg)
  let final := processBlocks (ws.length / 16) shaInit ws
  (final.map wordToHex).foldl (fun a s => a ++ s) ""

def utf8Char (c : Char) : List Nat :=
  let n := c.toNat
  if n < 0x80 then [n]
  else if n < 0x800 then [0xc0 ||| (n >>> 6), 0x80 ||| (n &&& 0x3f)]
  else if n < 0x10000 then
    [0xe0 ||| (n >>> 12), 0x80 ||| ((n >>> 6) &&& 0x3f), 0x80 ||| (n &&& 0x3f)]
  else
    [0xf0 ||| (n >>> 18), 0x80 ||| ((n >>> 12) &&& 0x3f),
     0x80 ||| ((n >>> 6) &&& 0x3f), 0x80 ||| (n &&& 0x3f)]

def utf8Encode (s : String) : List Nat := (s.data.map utf8Char).flatten

def sha256Hex (s : String) : String := sha256Bytes (utf8Encode s)

/-! ### Data model: the two tables of init_db -/

/-- A row of `consent_texts` (columns in source order). -/
structure ConsentText where
  id : Nat
  version : String
  language : String
  title : String
  body : String
  body_hash : String
  created_at : Nat
deriving Repr, DecidableEq

/-- A row of `consents` (columns in source order); `is_granted` is the SQLite
integer with `CHECK(is_granted IN (0,1))`. -/
structure ConsentRecord where
  id : String
  created_at : Nat
  subject_email : Option String
  subject_name : Option String
  purposes_json : String
  consent_text_id : Nat
  consent_text_version : String
  consent_text_hash : String
  is_granted : Nat
  revoked_at : Option Nat
  revocation_note : Option String
deriving Repr, DecidableEq

/-- The projection returned by `list_consents`, whose SELECT names only these
eight columns. -/
structure ConsentListRow where
  id : String
  created_at : Nat
  subject_email : Option String
  subject_name : Option String
  purposes_json : String
  consent_text_version : String
  is_granted : Nat
  revoked_at : Option Nat
deriving Repr, DecidableEq

/-- Database state: both tables plus the rowid counter SQLite uses to assign
`consent_texts.id`. -/
structure DB where
  consent_texts : List ConsentText
  consents : List ConsentRecord
  next_text_id : Nat
deriving Repr, DecidableEq

/-- Python `x or None` on an optional string: empty string collapses to NULL. -/
def pyOrNone (s : Option String) : Option String :=
  match s with
  | some v => if v = "" then none else some v
  | none => none

/-! ### The data-layer operations -/

/-- `upsert_consent_text(version, language, title, body)`: hash the body,
INSERT a fresh row with the timestamp, return the hash. -/
def upsert_consent_text (db : DB) (now : Nat) (version language title body : String) :
    DB × String :=
  let h := sha256Hex body
  ({ db with
      consent_texts := db.consent_texts ++
        [{ id := db.next_text_id, version := version, language := language,
           title := title, body := body, body_hash := h, created_at := now }],
      next_text_id := db.next_text_id + 1 }, h)

/-- `ORDER BY created_at DESC LIMIT 1`: an element of maximal `created_at`
(tie-break unspecified in SQLite; this picks the earliest such row). -/
def maxByCreatedAt : List ConsentText → Option ConsentText
  | [] => none
  | r :: rs =>
    match maxByCreatedAt rs with
    | none => some r
    | some m => if m.created_at ≤ r.created_at then some r else some m

/-- `get_latest_consent_text(language="de")`: WHERE language=? ORDER BY
created_at DESC LIMIT 1, fetchone (None when no row matches). -/
def get_latest_consent_text (db : DB) (language : String) : Option ConsentText :=
  maxByCreatedAt (db.consent_texts.filter (fun r => r.language == language))

/-- Descending creation-time order used by `ORDER BY datetime(created_at) DESC`. -/
def rowNewer (a b : ConsentListRow) : Prop := b.created_at ≤ a.created_at

instance : DecidableRel rowNewer := fun a b => Nat.decLe b.created_at a.created_at

instance : IsTotal ConsentListRow rowNewer :=
  ⟨fun a b => Nat.le_total b.created_at a.created_at⟩

instance : IsTrans ConsentListRow rowNewer :=
  ⟨fun _ _ _ hab hbc => Nat.le_trans hbc hab⟩

/-- The 8-column SELECT projection of `list_consents`. -/
def projRow (r : ConsentRecord) : ConsentListRow :=
  { id := r.id, created_at := r.created_at, subject_email := r.subject_email,
    subject_name := r.subject_name, purposes_json := r.purposes_json,
    consent_text_version := r.consent_text_version, is_granted := r.is_granted,
    revoked_at := r.revoked_at }

/-- `list_consents(email_filter=None)`: the WHERE clause is appended only when
`email_filter` is truthy in Python (not None and not the empty string); rows
come back newest first by `datetime(created_at)`. -/
def list_consents (db : DB) (email_filter : Option String) : List ConsentListRow :=
  let rows :=
    match email_filter with
    | some e =>
        if e = "" then db.consents
        else db.consents.filter (fun r => r.subject_email == some e)
    | none => db.consents
  List.insertionSort rowNewer (rows.map projRow)

/-- The VALUES tuple of the INSERT in `save_consent`: the snapshot row is
destructured as `ct_id, ct_version, _, _, _, ct_hash, _ = ct_row`. -/
def newConsentRecord (now : Nat) (cid : String)
    (subject_email subject_name : Option String) (purposes_json : String)
    (ct_row : ConsentText) : ConsentRecord :=
  { id := cid, created_at := now,
    subject_email := pyOrNone subject_email,
    subject_name := pyOrNone subject_name,
    purposes_json := purposes_json,
    consent_text_id := ct_row.id,
    consent_text_version := ct_row.version,
    consent_text_hash := ct_row.body_hash,
    is_granted := 1, revoked_at := none, revocation_note := none }

/-- `save_consent(subject_email, subject_name, purposes, ct_row)`: INSERT one
consent with a caller-supplied uuid `cid`, `is_granted=1`, `revoked_at=NULL`,
`revocation_note=NULL`; `none` models the failed (uncommitted) transaction
when `cid` violates the TEXT PRIMARY KEY. -/
def save_consent (db : DB) (now : Nat) (cid : String)
    (subject_email subject_name : Option String) (purposes_json : String)
    (ct_row : ConsentText) : Option (DB × String) :=
  if db.consents.any (fun r => r.id == cid) then none
  else
    some ({ db with consents := db.consents ++
      [newConsentRecord now cid subject_email subject_name purposes_json ct_row] }, cid)

/-- Default `note` argument of `revoke_consent`. -/
def default_revocation_note : String := "Widerruf durch Betroffene*n via UI"

/-- The per-row effect of the guarded UPDATE: SET only where
`id = ? AND revoked_at IS NULL`. -/
def revokeUpd (now : Nat) (cid note : String) (r : ConsentRecord) : ConsentRecord :=
  if r.id = cid ∧ r.revoked_at = none then
    { r with is_granted := 0, revoked_at := some now, revocation_note := some note }
  else r

/-- `revoke_consent(consent_id, note=...)`: one conditional UPDATE statement. -/
def revoke_consent (db : DB) (now : Nat) (consent_id : String) (note : String) : DB :=
  { db with consents := db.consents.map (revokeUpd now consent_id note) }

/-! ### Operation sequences over the ledger -/

/-- One user-triggered call into the data layer. -/
inductive LedgerOp where
  | upsertText (now : Nat) (version language title body : String)
  | save (now : Nat) (cid : String) (email nm : Option String)
      (purposes_json : String) (ct : ConsentText)
  | revoke (now : Nat) (cid : String) (note : String)

/-- Execute one operation; a save whose transaction fails leaves the state
unchanged (sqlite3 raises and `db()` never commits). -/
def execOp (db : DB) : LedgerOp → DB
  | .upsertText now v l t b => (upsert_consent_text db now v l t b).1
  | .save now cid em nm pj ct =>
      match save_consent db now cid em nm pj ct with
      | some p => p.1
      | none => db
  | .revoke now cid note => revoke_consent db now cid note

/-- Execute a sequence of operations. -/
def execOps (db : DB) (ops : List LedgerOp) : DB := ops.foldl execOp db

/-- The grant flag and the revocation timestamp never disagree: `is_granted`
is 1 exactly on the rows whose `revoked_at` is NULL. -/
abbrev LedgerInv (db : DB) : Prop :=
  ∀ r ∈ db.consents, (r.is_granted = 1 ↔ r.revoked_at = none)

/-! ### Concrete sample state used by the witness theorems -/

def ctSample : ConsentText :=
  { id := 1, version := "v1.0", language := "de", title := "Einwilligung",
    body := "Hallo", body_hash := "hh", created_at := 10 }

def recActive : ConsentRecord :=
  { id := "id1", created_at := 5, subject_email := some "a@example.com",
    subject_name := none, purposes_json := "pj", consent_text_id := 1,
    consent_text_version := "v1.0", consent_text_hash := "hh",
    is_granted := 1, revoked_at := none, revocation_note := none }

def recRevoked : ConsentRecord :=
  { id := "id2", created_at := 6, subject_email := some "b@example.com",
    subject_name := none, purposes_json := "pj", consent_text_id := 1,
    consent_text_version := "v1.0", consent_text_hash := "hh",
    is_granted := 0, revoked_at := some 7, revocation_note := some "n" }

def dbSample : DB :=
  { consent_texts := [ctSample], consents := [recActive, recRevoked],
    next_text_id := 2 }

/-! ### Sanity checks of the SHA-256 implementation against FIPS 180-4
test vectors. -/

theorem sha256Hex_abc :
    sha256Hex "abc" =
      "ba7816bf8f01cfea414140de5dae2223b00361a396177a9cb410ff61f20015ad" := by
  decide

theorem sha256Hex_empty :
    sha256Hex "" =
      "e3b0c44298fc1c149afbf4c8996fb92427ae41e4649b934ca495991b7852b855" := by
  decide

/-! ### Helper lemmas -/

lemma maxByCreatedAt_none_iff (l : List ConsentText) :
    maxByCreatedAt l = none ↔ l = [] := by
  cases l with
  | nil => simp [maxByCreatedAt]
  | cons a l =>
    simp only [maxByCreatedAt]
    cases hm : maxByCreatedAt l with
    | none => simp
    | some m => by_cases hc : m.created_at ≤ a.created_at <;> simp [hc]

lemma maxByCreatedAt_spec (l : List ConsentText) (r : ConsentText)
    (h : maxByCreatedAt l = some r) :
    r ∈ l ∧ ∀ x ∈ l, x.created_at ≤ r.created_at := by
  induction l generalizing r with
  | nil => simp [maxByCreatedAt] at h
  | cons a l ih =>
    simp only [maxByCreatedAt] at h
    cases hm : maxByCreatedAt l with
    | none =>
      rw [hm] at h
      simp only [Option.some.injEq] at h
      subst h
      have hl : l = [] := (maxByCreatedAt_none_iff l).mp hm
      subst hl
      simp
    | some m =>
      rw [hm] at h
      dsimp only at h
      obtain ⟨hmem, hmax⟩ := ih m hm
      by_cases hc : m.created_at ≤ a.created_at
      · rw [if_pos hc] at h
        simp only [Option.some.injEq] at h
        subst h
        refine ⟨List.mem_cons_self _ _, ?_⟩
        intro x hx
        rcases List.mem_cons.mp hx with hxa | hxl
        · subst hxa; exact Nat.le_refl _
        · exact Nat.le_trans (hmax x hxl) hc
      · rw [if_neg hc] at h
        simp only [Option.some.injEq] at h
        subst h
        refine ⟨List.mem_cons_of_mem _ hmem, ?_⟩
        intro x hx
        rcases List.mem_cons.mp hx with hxa | hxl
        · subst hxa; exact Nat.le_of_lt (Nat.not_le.mp hc)
        · exact hmax x hxl

lemma save_consent_fresh (db : DB) (now : Nat) (cid : String)
    (em nm : Option String) (pj : String) (ct : ConsentText)
    (hfresh : ∀ r ∈ db.consents, r.id ≠ cid) :
    save_consent db now cid em nm pj ct
      = some ({ db with consents :=
          db.consents ++ [newConsentRecord now cid em nm pj ct] }, cid) := by
  have h : db.consents.any (fun r => r.id == cid) = false := by
    rw [List.any_eq_false]
    intro r hr
    simpa using hfresh r hr
  simp [save_consent, h]

lemma save_consent_some (db : DB) (now : Nat) (cid : String)
    (em nm : Option String) (pj : String) (ct : ConsentText)
    (p : DB × String) (h : save_consent db now cid em nm pj ct = some p) :
    p.1.consents = db.consents ++ [newConsentRecord now cid em nm pj ct] := by
  unfold save_consent at h
  split at h
  · exact absurd h (by simp)
  · cases h; rfl

lemma revokeUpd_of_active (now : Nat) (cid note : String) (r : ConsentRecord)
    (h : r.id = cid ∧ r.revoked_at = none) :
    revokeUpd now cid note r
      = { r with is_granted := 0, revoked_at := some now,
                 revocation_note := some note } := by
  rw [revokeUpd, if_pos h]

lemma revokeUpd_of_guard_false (now : Nat) (cid note : String) (r : ConsentRecord)
    (h : ¬(r.id = cid ∧ r.revoked_at = none)) : revokeUpd now cid note r = r := by
  rw [revokeUpd, if_neg h]

lemma revokeUpd_of_revoked (now : Nat) (cid note : String) (r : ConsentRecord)
    (h : r.revoked_at ≠ none) : revokeUpd now cid note r = r :=
  revokeUpd_of_guard_false now cid note r (fun hc => h hc.2)

lemma revokeUpd_idem (now1 now2 : Nat) (cid note1 note2 : String)
    (r : ConsentRecord) :
    revokeUpd now2 cid note2 (revokeUpd now1 cid note1 r)
      = revokeUpd now1 cid note1 r := by
  by_cases h : r.id = cid ∧ r.revoked_at = none
  · rw [revokeUpd_of_active now1 cid note1 r h]
    exact revokeUpd_of_revoked _ _ _ _ (by simp)
  · rw [revokeUpd_of_guard_false now1 cid note1 r h,
        revokeUpd_of_guard_false now2 cid note2 r h]

lemma execOp_preserves_revoked (db : DB) (op : LedgerOp) (r : ConsentRecord)
    (hmem : r ∈ db.consents) (hrev : r.revoked_at ≠ none) :
    r ∈ (execOp db op).consents := by
  cases op with
  | upsertText now v l t b => simpa [execOp, upsert_consent_text] using hmem
  | save now cid em nm pj ct =>
    simp only [execOp]
    cases hs : save_consent db now cid em nm pj ct with
    | none => simpa using hmem
    | some p =>
      rw [save_consent_some db now cid em nm pj ct p hs]
      exact List.mem_append_left _ hmem
  | revoke now cid note =>
    have h2 := List.mem_map_of_mem (revokeUpd now cid note) hmem
    rw [revokeUpd_of_revoked now cid note r hrev] at h2
    simpa [execOp, revoke_consent] using h2

lemma execOps_preserves_revoked (ops : List LedgerOp) (r : ConsentRecord)
    (hrev : r.revoked_at ≠ none) :
    ∀ db : DB, r ∈ db.consents → r ∈ (execOps db ops).consents := by
  induction ops with
  | nil => intro db h; simpa [execOps] using h
  | cons op ops ih =>
    intro db h
    exact ih (execOp db op) (execOp_preserves_revoked db op r h hrev)

lemma execOp_preserves_inv (db : DB) (op : LedgerOp) (h : LedgerInv db) :
    LedgerInv (execOp db op) := by
  cases op with
  | upsertText now v l t b =>
    intro r hr
    exact h r (by simpa [execOp, upsert_consent_text] using hr)
  | save now cid em nm pj ct =>
    intro r hr
    simp only [execOp] at hr
    cases hs : save_consent db now cid em nm pj ct with
    | none => rw [hs] at hr; exact h r hr
    | some p =>
      rw [hs] at hr
      rw [save_consent_some db now cid em nm pj ct p hs] at hr
      rcases List.mem_append.mp hr with h1 | h1
      · exact h r h1
      · simp only [List.mem_singleton] at h1
        subst h1
        simp [newConsentRecord]
  | revoke now cid note =>
    intro r hr
    simp only [execOp, revoke_consent] at hr
    obtain ⟨s, hs, hsr⟩ := List.mem_map.mp hr
    subst hsr
    by_cases hc : s.id = cid ∧ s.revoked_at = none
    · rw [revokeUpd_of_active now cid note s hc]
      simp
    · rw [revokeUpd_of_guard_false now cid note s hc]
      exact h s hs

lemma execOps_preserves_inv (ops : List LedgerOp) :
    ∀ db : DB, LedgerInv db → LedgerInv (execOps db ops) := by
  induction ops with
  | nil => intro db h; simpa [execOps] using h
  | cons op ops ih =>
    intro db h
    exact ih (execOp db op) (execOp_preserves_inv db op h)

/-! ### Claim theorems -/

/-- C2: on a record in the ACTIVE state (`revoked_at` null) whose id matches,
`revoke_consent` sets `is_granted` to 0, `revoked_at` to the current time and
`revocation_note` to the given note; records whose `revoked_at` is already
set are left untouched, so the update happens only when `revoked_at` is
currently null. -/
theorem revoke_consent_active (db : DB) (now : Nat) (cid note : String) :
    (∀ r ∈ db.consents, r.id = cid → r.revoked_at = none →
      { r with is_granted := 0, revoked_at := some now,
               revocation_note := some note }
        ∈ (revoke_consent db now cid note).consents)
    ∧ (∀ r ∈ db.consents, r.revoked_at ≠ none →
        r ∈ (revoke_consent db now cid note).consents) := by
  constructor
  · intro r hr hid hact
    have h2 := List.mem_map_of_mem (revokeUpd now cid note) hr
    rw [revokeUpd_of_active now cid note r ⟨hid, hact⟩] at h2
    simpa [revoke_consent] using h2
  · intro r hr hrev
    have h2 := List.mem_map_of_mem (revokeUpd now cid note) hr
    rw [revokeUpd_of_revoked now cid note r hrev] at h2
    simpa [revoke_consent] using h2

/-- Witness for C2 at a concrete active record. -/
theorem revoke_consent_active_witness :
    { recActive with is_granted := 0, revoked_at := some 8,
                     revocation_note := some "mynote" }
      ∈ (revoke_consent dbSample 8 "id1" "mynote").consents :=
  (revoke_consent_active dbSample 8 "id1" "mynote").1 recActive (by decide)
    (by decide) (by decide)

/-- C3: a second `revoke_consent` with the same id is a silent no-op leaving
the state exactly as the first revoke set it, and `revoke_consent` with an id
matching no record leaves the whole state unchanged (and, being total, does
not fail). -/
theorem revoke_consent_noop (db : DB) (now1 now2 : Nat)
    (cid note1 note2 : String) :
    revoke_consent (revoke_consent db now1 cid note1) now2 cid note2
      = revoke_consent db now1 cid note1
    ∧ ((∀ r ∈ db.consents, r.id ≠ cid) →
        revoke_consent db now2 cid note2 = db) := by
  constructor
  · have h : (db.consents.map (revokeUpd now1 cid note1)).map
        (revokeUpd now2 cid note2)
        = db.consents.map (revokeUpd now1 cid note1) := by
      rw [List.map_map]
      exact List.map_congr_left
        (fun r _ => revokeUpd_idem now1 now2 cid note1 note2 r)
    simp [revoke_consent, h]
  · intro hno
    have h : db.consents.map (revokeUpd now2 cid note2) = db.consents := by
      have h2 := List.map_congr_left (l := db.consents)
        (f := revokeUpd now2 cid note2) (g := id)
        (fun r hr => revokeUpd_of_guard_false now2 cid note2 r
          (fun hc => hno r hr hc.1))
      simpa using h2
    simp [revoke_consent, h]

/-- Witness for C3: revoking a nonexistent id on the sample state. -/
theorem revoke_consent_noop_witness :
    (∀ r ∈ dbSample.consents, r.id ≠ "ghost")
    ∧ revoke_consent dbSample 9 "ghost" "x" = dbSample :=
  ⟨by decide, (revoke_consent_noop dbSample 9 9 "ghost" "x" "x").2 (by decide)⟩

/-- C4: `upsert_consent_text` stores `body_hash` equal to the SHA-256 hex
digest of the exact UTF-8 bytes of the body and returns that hash; re-saving
an identical body under a new version returns the same hash but appends a
distinct new row (pure insert: every prior row is preserved verbatim). -/
theorem upsert_consent_text_hash_spec (db : DB) (now1 now2 : Nat)
    (v1 l1 t1 v2 l2 t2 body : String) :
    (upsert_consent_text db now1 v1 l1 t1 body).2 = sha256Bytes (utf8Encode body)
    ∧ (upsert_consent_text db now1 v1 l1 t1 body).1.consent_texts
        = db.consent_texts ++
          [{ id := db.next_text_id, version := v1, language := l1, title := t1,
             body := body, body_hash := sha256Bytes (utf8Encode body),
             created_at := now1 }]
    ∧ (upsert_consent_text (upsert_consent_text db now1 v1 l1 t1 body).1
          now2 v2 l2 t2 body).2
        = (upsert_consent_text db now1 v1 l1 t1 body).2
    ∧ (upsert_consent_text (upsert_consent_text db now1 v1 l1 t1 body).1
          now2 v2 l2 t2 body).1.consent_texts
        = (upsert_consent_text db now1 v1 l1 t1 body).1.consent_texts ++
          [{ id := db.next_text_id + 1, version := v2, language := l2,
             title := t2, body := body,
             body_hash := sha256Bytes (utf8Encode body), created_at := now2 }]
    ∧ db.next_text_id + 1 ≠ db.next_text_id :=
  ⟨rfl, rfl, rfl, rfl, by omega⟩

/-- C5: `get_latest_consent_text` returns a stored row of the requested
language whose `created_at` is maximal among rows of that language, and
returns `none` exactly when no row of that language exists. -/
theorem get_latest_consent_text_spec (db : DB) (lang : String) :
    (∀ r, get_latest_consent_text db lang = some r →
        r.language = lang ∧ r ∈ db.consent_texts ∧
        ∀ s ∈ db.consent_texts, s.language = lang →
          s.created_at ≤ r.created_at)
    ∧ (get_latest_consent_text db lang = none ↔
        ∀ r ∈ db.consent_texts, r.language ≠ lang) := by
  constructor
  · intro r h
    unfold get_latest_consent_text at h
    obtain ⟨hmem, hmax⟩ := maxByCreatedAt_spec _ r h
    have hm := List.mem_filter.mp hmem
    refine ⟨by simpa using hm.2, hm.1, ?_⟩
    intro s hs hsl
    exact hmax s (List.mem_filter.mpr ⟨hs, by simpa using hsl⟩)
  · unfold get_latest_consent_text
    rw [maxByCreatedAt_none_iff, List.filter_eq_nil_iff]
    simp

/-- Witness for C5 on the sample state. -/
theorem get_latest_consent_text_spec_witness :
    ctSample.language = "de" ∧ ctSample ∈ dbSample.consent_texts ∧
      ∀ s ∈ dbSample.consent_texts, s.language = "de" →
        s.created_at ≤ ctSample.created_at :=
  (get_latest_consent_text_spec dbSample "de").1 ctSample (by decide)

/-- C6: with a fresh identifier (the uuid4 output, assumed unused),
`save_consent` appends exactly one new record whose `created_at` is the
current time, `is_granted` is 1, `revoked_at` and `revocation_note` are null,
and whose `consent_text_id`/`version`/`hash` are frozen from the snapshot
row, and returns that identifier. -/
theorem save_consent_spec (db : DB) (now : Nat) (cid : String)
    (em nm : Option String) (pj : String) (ct : ConsentText)
    (hfresh : ∀ r ∈ db.consents, r.id ≠ cid) :
    save_consent db now cid em nm pj ct
      = some ({ db with consents :=
          db.consents ++ [newConsentRecord now cid em nm pj ct] }, cid)
    ∧ (newConsentRecord now cid em nm pj ct).id = cid
    ∧ (newConsentRecord now cid em nm pj ct).created_at = now
    ∧ (newConsentRecord now cid em nm pj ct).is_granted = 1
    ∧ (newConsentRecord now cid em nm pj ct).revoked_at = none
    ∧ (newConsentRecord now cid em nm pj ct).revocation_note = none
    ∧ (newConsentRecord now cid em nm pj ct).consent_text_id = ct.id
    ∧ (newConsentRecord now cid em nm pj ct).consent_text_version = ct.version
    ∧ (newConsentRecord now cid em nm pj ct).consent_text_hash = ct.body_hash :=
  ⟨save_consent_fresh db now cid em nm pj ct hfresh,
   rfl, rfl, rfl, rfl, rfl, rfl, rfl, rfl⟩

/-- Witness for C6 on the sample state with a fresh id. -/
theorem save_consent_spec_witness :
    (∀ r ∈ dbSample.consents, r.id ≠ "id3")
    ∧ save_consent dbSample 30 "id3" (some "c@example.com") none "pj" ctSample
        = some ({ dbSample with consents := dbSample.consents ++
            [newConsentRecord 30 "id3" (some "c@example.com") none "pj"
              ctSample] }, "id3") :=
  ⟨by decide,
   (save_consent_spec dbSample 30 "id3" (some "c@example.com") none "pj"
      ctSample (by decide)).1⟩

/-- C10: an empty-string email filter is falsy in Python, so `list_consents`
behaves exactly as if no filter were given. -/
theorem list_consents_empty_filter (db : DB) :
    list_consents db (some "") = list_consents db none := by
  simp [list_consents]

lemma filter_new_id (db : DB) (cid : String) (newr : ConsentRecord)
    (hfresh : ∀ r ∈ db.consents, r.id ≠ cid) (hid : newr.id = cid) :
    (List.insertionSort rowNewer
        ((db.consents ++ [newr]).map projRow)).filter
      (fun row => row.id == cid) = [projRow newr] := by
  have hperm : ((List.insertionSort rowNewer
      ((db.consents ++ [newr]).map projRow)).filter
        (fun row => row.id == cid)).Perm
      (((db.consents ++ [newr]).map projRow).filter
        (fun row => row.id == cid)) :=
    (List.perm_insertionSort rowNewer _).filter _
  have hfil : ((db.consents ++ [newr]).map projRow).filter
      (fun row => row.id == cid) = [projRow newr] := by
    rw [List.map_append, List.filter_append]
    have hnil : (db.consents.map projRow).filter
        (fun row => row.id == cid) = [] := by
      rw [List.filter_eq_nil_iff]
      intro y hy
      obtain ⟨s, hsmem, hsy⟩ := List.mem_map.mp hy
      rw [← hsy]
      simpa [projRow] using hfresh s hsmem
    rw [hnil]
    simp [projRow, hid]
  exact List.perm_singleton.mp (hfil ▸ hperm)

/-- C1: a consent saved from a text snapshot freezes the snapshot's version
and hash; a later `upsert_consent_text` (adding a newer text version) leaves
every consent record unchanged; and an unfiltered `list_consents` afterwards
contains exactly one row for the new record, whose stored
`consent_text_hash` equals the snapshot's hash. -/
theorem save_then_upsert_snapshot (db : DB) (now1 now2 : Nat) (cid : String)
    (em nm : Option String) (pj : String) (ct : ConsentText)
    (v l t b : String)
    (hfresh : ∀ r ∈ db.consents, r.id ≠ cid) :
    ∃ db1 r, save_consent db now1 cid em nm pj ct = some (db1, cid)
      ∧ r.id = cid
      ∧ r.consent_text_version = ct.version
      ∧ r.consent_text_hash = ct.body_hash
      ∧ db1.consents = db.consents ++ [r]
      ∧ (upsert_consent_text db1 now2 v l t b).1.consents = db1.consents
      ∧ (list_consents (upsert_consent_text db1 now2 v l t b).1 none).filter
          (fun row => row.id == cid) = [projRow r] := by
  refine ⟨_, newConsentRecord now1 cid em nm pj ct,
    save_consent_fresh db now1 cid em nm pj ct hfresh,
    rfl, rfl, rfl, rfl, rfl, ?_⟩
  exact filter_new_id db cid (newConsentRecord now1 cid em nm pj ct) hfresh rfl

/-- Witness for C1 on the sample state. -/
theorem save_then_upsert_snapshot_witness :
    (∀ r ∈ dbSample.consents, r.id ≠ "cid-new")
    ∧ ∃ db1 r, save_consent dbSample 20 "cid-new" (some "a@example.com") none
          "pj" ctSample = some (db1, "cid-new")
        ∧ r.id = "cid-new"
        ∧ r.consent_text_version = ctSample.version
        ∧ r.consent_text_hash = ctSample.body_hash
        ∧ db1.consents = dbSample.consents ++ [r]
        ∧ (upsert_consent_text db1 21 "v2" "de" "T" "B").1.consents
            = db1.consents
        ∧ (list_consents (upsert_consent_text db1 21 "v2" "de" "T" "B").1
              none).filter (fun row => row.id == "cid-new") = [projRow r] :=
  ⟨by decide,
   save_then_upsert_snapshot dbSample 20 21 "cid-new" (some "a@example.com")
     none "pj" ctSample "v2" "de" "T" "B" (by decide)⟩

/-- C7: with a nonempty email filter, `list_consents` returns exactly the
records whose `subject_email` equals the filter (plain string equality; rows
with NULL or different email are excluded), with no filter it returns all
records, and both results are ordered newest first by creation time. -/
theorem list_consents_spec (db : DB) (e : String) (he : e ≠ "") :
    (list_consents db (some e)).Perm
        ((db.consents.filter (fun r => r.subject_email == some e)).map projRow)
    ∧ (∀ row ∈ list_consents db (some e), row.subject_email = some e)
    ∧ (list_consents db none).Perm (db.consents.map projRow)
    ∧ List.Sorted rowNewer (list_consents db (some e))
    ∧ List.Sorted rowNewer (list_consents db none) := by
  have h1 : list_consents db (some e)
      = List.insertionSort rowNewer
          ((db.consents.filter
            (fun r => r.subject_email == some e)).map projRow) := by
    simp [list_consents, he]
  have h2 : list_consents db none
      = List.insertionSort rowNewer (db.consents.map projRow) := rfl
  refine ⟨?_, ?_, ?_, ?_, ?_⟩
  · rw [h1]; exact List.perm_insertionSort _ _
  · intro row hrow
    rw [h1] at hrow
    have hmem := (List.perm_insertionSort rowNewer _).mem_iff.mp hrow
    obtain ⟨r, hrmem, hrw⟩ := List.mem_map.mp hmem
    have hr := (List.mem_filter.mp hrmem).2
    rw [← hrw]
    simpa [projRow] using hr
  · rw [h2]; exact List.perm_insertionSort _ _
  · rw [h1]; exact List.sorted_insertionSort _ _
  · rw [h2]; exact List.sorted_insertionSort _ _

/-- Witness for C7 with the sample state and a concrete email filter. -/
theorem list_consents_spec_witness :
    ("a@example.com" ≠ "")
    ∧ ((list_consents dbSample (some "a@example.com")).Perm
          ((dbSample.consents.filter
            (fun r => r.subject_email == some "a@example.com")).map projRow)
      ∧ (∀ row ∈ list_consents dbSample (some "a@example.com"),
          row.subject_email = some "a@example.com")
      ∧ (list_consents dbSample none).Perm (dbSample.consents.map projRow)
      ∧ List.Sorted rowNewer (list_consents dbSample (some "a@example.com"))
      ∧ List.Sorted rowNewer (list_consents dbSample none)) :=
  ⟨by decide, list_consents_spec dbSample "a@example.com" (by decide)⟩

/-- C8: a revoked record (non-null `revoked_at`) survives, byte for byte
unchanged, any sequence of `upsert_consent_text`, `save_consent` and
`revoke_consent` calls: it is never re-activated, never has its
`revoked_at` cleared, and is never deleted. -/
theorem revoked_record_persists (db : DB) (ops : List LedgerOp)
    (r : ConsentRecord) (hmem : r ∈ db.consents)
    (hrev : r.revoked_at ≠ none) :
    r ∈ (execOps db ops).consents :=
  execOps_preserves_revoked ops r hrev db hmem

/-- Witness for C8: the revoked sample record survives a concrete sequence
of operations. -/
theorem revoked_record_persists_witness :
    recRevoked ∈ (execOps dbSample
      [LedgerOp.revoke 8 "id2" "x", LedgerOp.upsertText 9 "v2" "de" "T" "B",
       LedgerOp.save 10 "id9" none none "pj" ctSample]).consents :=
  revoked_record_persists dbSample
    [LedgerOp.revoke 8 "id2" "x", LedgerOp.upsertText 9 "v2" "de" "T" "B",
     LedgerOp.save 10 "id9" none none "pj" ctSample]
    recRevoked (by decide) (by decide)

/-- C9: the invariant that `is_granted = 1` exactly when `revoked_at` is
null is preserved by every sequence of ledger operations. -/
theorem ledger_flags_invariant (db : DB) (ops : List LedgerOp)
    (h : LedgerInv db) : LedgerInv (execOps db ops) :=
  execOps_preserves_inv ops db h

/-- Witness for C9 on the sample state. -/
theorem ledger_flags_invariant_witness :
    LedgerInv dbSample
    ∧ LedgerInv (execOps dbSample [LedgerOp.revoke 8 "id1" "x"]) :=
  ⟨by decide,
   ledger_flags_invariant dbSample [LedgerOp.revoke 8 "id1" "x"] (by decide)⟩
